import Mathlib

/-!
Verification of the service-manager terminal UI engine.

The definitions below are a shallow embedding of the TypeScript sources:
the TUI engine (the second embedded listing of the repository README,
referred to by line numbers 577-1218) and the platform adapter
`src/service.ts`.  JavaScript numbers holding integers are modelled as
`Int` (with `Nat` for values that are list lengths or sizes by
construction); JavaScript strings are modelled as `String`; terminal
styling from the external pi-tui / chalk libraries is modelled by a chunk
list where styling escapes occupy zero display columns.
-/

namespace ServiceManager

/-! ### Styled terminal strings

Modelled from the spec: the external pi-tui library's `visibleWidth`,
`truncateToWidth` and `padding`, and chalk's styling wrappers, operate on
strings containing invisible SGR escape sequences.  A styled string is a
sequence of chunks; a `style` chunk is an escape sequence occupying zero
display columns, a `text` chunk is visible text (each character one
display column). -/

inductive Chunk where
  | text (cs : List Char)
  | style (code : Nat)
deriving DecidableEq, Repr

abbrev Styled := List Chunk

def chunkWidth : Chunk → Nat
  | .text cs => cs.length
  | .style _ => 0

/-- Display columns occupied by a styled string (escapes count zero). -/
def visibleWidth (s : Styled) : Nat := (s.map chunkWidth).sum

/-- pi-tui `padding(n)`: a run of `n` spaces. -/
def padding (n : Nat) : Styled := [.text (List.replicate n ' ')]

/-- pi-tui `truncateToWidth`: keep at most `w` display columns, retaining
styling escapes. -/
def truncateToWidth : Styled → Nat → Styled
  | [], _ => []
  | .style c :: rest, w => .style c :: truncateToWidth rest w
  | .text cs :: rest, w =>
    if cs.length ≤ w then .text cs :: truncateToWidth rest (w - cs.length)
    else [.text (cs.take w)]

/-- A plain (unstyled) string as a styled string. -/
def strS (s : String) : Styled := [.text s.data]

/-- chalk styling: wrap in an opening escape and a reset escape. -/
def wrap (code : Nat) (s : Styled) : Styled := .style code :: s ++ [.style 0]

def bold : Styled → Styled := wrap 1
def dim : Styled → Styled := wrap 2
def inverse : Styled → Styled := wrap 7
def red : Styled → Styled := wrap 31
def green : Styled → Styled := wrap 32
def yellow : Styled → Styled := wrap 33
def cyan : Styled → Styled := wrap 36
/-- chalk.dim.italic -/
def dimItalic : Styled → Styled := wrap 23
/-- chalk.red, used as the stderr line tag. -/
def redTag : Styled → Styled := red

theorem visibleWidth_append (a b : Styled) :
    visibleWidth (a ++ b) = visibleWidth a + visibleWidth b := by
  simp [visibleWidth]

theorem visibleWidth_padding (n : Nat) : visibleWidth (padding n) = n := by
  simp [visibleWidth, padding, chunkWidth]

theorem visibleWidth_strS (s : String) : visibleWidth (strS s) = s.data.length := by
  simp [visibleWidth, strS, chunkWidth]

theorem visibleWidth_wrap (c : Nat) (s : Styled) :
    visibleWidth (wrap c s) = visibleWidth s := by
  simp [visibleWidth, wrap, chunkWidth]

theorem visibleWidth_truncateToWidth (s : Styled) (w : Nat) :
    visibleWidth (truncateToWidth s w) = min (visibleWidth s) w := by
  induction s generalizing w with
  | nil => simp [truncateToWidth, visibleWidth]
  | cons c rest ih =>
    cases c with
    | style code =>
      simp [truncateToWidth, visibleWidth, chunkWidth] at *
      exact ih w
    | text cs =>
      have e2 : visibleWidth (Chunk.text cs :: rest) = cs.length + visibleWidth rest := by
        simp [visibleWidth, chunkWidth]
      rw [truncateToWidth]
      by_cases h : cs.length ≤ w
      · rw [if_pos h]
        have e1 : visibleWidth (Chunk.text cs :: truncateToWidth rest (w - cs.length))
            = cs.length + visibleWidth (truncateToWidth rest (w - cs.length)) := by
          simp [visibleWidth, chunkWidth]
        rw [e1, ih (w - cs.length), e2]
        omega
      · rw [if_neg h]
        have e1 : visibleWidth [Chunk.text (cs.take w)] = min w cs.length := by
          simp [visibleWidth, chunkWidth]
        rw [e1, e2]
        omega

/-! ### Layout helpers (engine source, lines 627-666) -/

def PAD_X : Nat := 2
def MAX_LOG_LINES : Nat := 250
def SPINNER : List String := ["⠋", "⠙", "⠹", "⠸", "⠼", "⠴", "⠦", "⠧", "⠇", "⠏"]

/-- `fit(s, w)` (source line 629). -/
def fit (s : Styled) (w : Int) : Styled :=
  if w ≤ 0 then [] else
    let t := truncateToWidth s w.toNat
    t ++ padding (w.toNat - visibleWidth t)

/-- `row(content, w)` (source line 634). -/
def row (content : Styled) (w : Nat) : Styled :=
  let line := padding PAD_X ++ content
  let vw := visibleWidth line
  if w ≤ vw then truncateToWidth line w
  else line ++ padding (w - vw)

/-- `highlightRow` (source line 649). -/
def highlightRow (content : Styled) (w : Nat) : Styled := row (bold content) w

/-- `emptyRow` (source line 653). -/
def emptyRow (w : Nat) : Styled := padding w

/-- `clamp(v, lo, hi)` (source line 657). -/
def clamp (v lo hi : Int) : Int := max lo (min hi v)

/-- `visRange(total, sel, win)` (source lines 661-666).  `Math.floor(win/2)`
is floor division, i.e. `Int.fdiv`. -/
def visRange (total sel win : Int) : Int × Int :=
  if total ≤ win then (0, total)
  else
    let half := Int.fdiv win 2
    let start := clamp (sel - half) 0 (max 0 (total - win))
    (start, min total (start + win))

theorem visibleWidth_row (content : Styled) (w : Nat) :
    visibleWidth (row content w) = w := by
  simp only [row]
  by_cases h : w ≤ visibleWidth (padding PAD_X ++ content)
  · rw [if_pos h, visibleWidth_truncateToWidth]
    omega
  · rw [if_neg h, visibleWidth_append, visibleWidth_padding]
    omega

theorem visibleWidth_highlightRow (content : Styled) (w : Nat) :
    visibleWidth (highlightRow content w) = w := visibleWidth_row _ w

theorem visibleWidth_emptyRow (w : Nat) : visibleWidth (emptyRow w) = w :=
  visibleWidth_padding w

/-- C3: the windowing function.  If `total ≤ win` it shows everything;
otherwise it returns a window of length exactly `win` starting at
`clamp(sel - floor(win/2), 0, total - win)`; the three concrete cases of
the spec evaluate as stated. -/
theorem visRange_spec (total sel win : Int) (hwin : 0 < win) (hsel : 0 ≤ sel)
    (hlt : sel < total) :
    (total ≤ win → visRange total sel win = (0, total)) ∧
    (win < total →
      (visRange total sel win).1 = clamp (sel - Int.fdiv win 2) 0 (total - win) ∧
      (visRange total sel win).2 = (visRange total sel win).1 + win) ∧
    visRange 100 5 10 = (0, 10) ∧
    visRange 100 95 10 = (90, 100) ∧
    visRange 100 50 10 = (45, 55) := by
  refine ⟨fun h => by simp [visRange, h], fun h => ?_, by decide, by decide, by decide⟩
  have hnle : ¬ total ≤ win := by omega
  have hmax : max 0 (total - win) = total - win := by omega
  constructor
  · simp [visRange, hnle, hmax]
  · have hle : clamp (sel - Int.fdiv win 2) 0 (total - win) ≤ total - win := by
      simp [clamp]; omega
    simp [visRange, hnle, hmax, clamp] at *
    omega

theorem visRange_spec_witness :
    (0 : Int) < 10 ∧ (0 : Int) ≤ 95 ∧ (95 : Int) < 100 ∧
    visRange 100 95 10 = (90, 100) :=
  ⟨by decide, by decide, by decide, (visRange_spec 100 95 10 (by decide) (by decide) (by decide)).2.2.2.1⟩

/-! ### Data model (engine source, lines 695-714, and src/service.ts lines 3-8) -/

inductive Tone where
  | success | error | info
deriving DecidableEq, Repr

inductive Mode where
  | dashboard | add | logs
deriving DecidableEq, Repr

structure Flash where
  tone : Tone
  text : String
deriving DecidableEq, Repr

/-- `ServiceInfo` from src/service.ts; `enabled?: boolean` is an optional
field, modelled as `Option Bool` (`none` = absent). -/
structure ServiceInfo where
  name : String
  active : Bool
  status : String
  enabled : Option Bool
deriving DecidableEq, Repr

structure AddForm where
  name : String
  command : String
  field : Nat
deriving DecidableEq, Repr

/-- The engine's mutable globals (lines 698-714).  The live subprocess
reference `logProc` is modelled by an identifying number; timer handles
(`flashTimer`, `spinnerTimer`) and the `refreshing` re-entrancy latch are
event-loop plumbing with no bearing on the verified claims and are
omitted. -/
structure AppState where
  services : List ServiceInfo
  sel : Int
  mode : Mode
  busy : Bool
  flash : Option Flash
  addForm : AddForm
  logSvc : Option String
  logLines : List Styled
  logProc : Option Nat
  logScroll : Int
  spinnerFrame : Nat
  searchQuery : String
  searching : Bool
  confirmRemove : Option String
deriving DecidableEq, Repr

def initState : AppState :=
  { services := [], sel := 0, mode := .dashboard, busy := false, flash := none,
    addForm := ⟨"", "", 0⟩, logSvc := none, logLines := [], logProc := none,
    logScroll := 0, spinnerFrame := 0, searchQuery := "", searching := false,
    confirmRemove := none }

/-- JS `String.prototype.startsWith`, on character lists. -/
def leadsWith : List Char → List Char → Bool
  | [], _ => true
  | _ :: _, [] => false
  | p :: ps, c :: cs => p == c && leadsWith ps cs

def containsSeg (needle : List Char) : List Char → Bool
  | [] => leadsWith needle []
  | c :: cs => leadsWith needle (c :: cs) || containsSeg needle cs

/-- JS `hay.includes(needle)`: substring containment. -/
def containsSub (hay needle : String) : Bool := containsSeg needle.data hay.data

/-- `getFiltered()` (source lines 677-681); `toLowerCase` modelled by
`String.toLower`. -/
def getFiltered (st : AppState) : List ServiceInfo :=
  if st.searchQuery = "" then st.services
  else st.services.filter fun s => containsSub s.name.toLower st.searchQuery.toLower

/-- `setFlash(tone, text)` (source lines 718-723); the expiry timer is an
event-loop concern and is not modelled. -/
def setFlash (tone : Tone) (text : String) (st : AppState) : AppState :=
  { st with flash := some ⟨tone, text⟩ }

/-! ### Log buffer (drain, source lines 843-862) -/

/-- The element `drain` inserts for a completed line: `pfx + (ln || " ")`
(source line 855). -/
def pushedLine (pfx : Styled) (ln : String) : Styled :=
  pfx ++ strS (if ln = "" then " " else ln)

/-- One completed-line insertion from `drain`'s inner loop (source lines
854-857): push `pfx + (ln || " ")`, then if the buffer exceeds
`MAX_LOG_LINES` keep only the last `MAX_LOG_LINES` entries
(`slice(-MAX_LOG_LINES)`). -/
def pushLogLine (pfx : Styled) (ln : String) (buf : List Styled) : List Styled :=
  let buf := buf ++ [pushedLine pfx ln]
  if MAX_LOG_LINES < buf.length then buf.drop (buf.length - MAX_LOG_LINES) else buf

/-- A sequence of completed-line insertions. -/
def pushLogLines (pfx : Styled) (buf : List Styled) (lns : List String) : List Styled :=
  lns.foldl (fun b l => pushLogLine pfx l b) buf

theorem length_pushLogLine (pfx : Styled) (ln : String) (buf : List Styled)
    (h : buf.length ≤ MAX_LOG_LINES) :
    (pushLogLine pfx ln buf).length ≤ MAX_LOG_LINES := by
  simp only [pushLogLine]
  split
  · simp only [List.length_drop]
    omega
  · rename_i hc
    simp only [List.length_append, List.length_cons, List.length_nil] at hc ⊢
    omega

theorem drop_count_congr {α : Type} {a b : Nat} (l : List α) (h : a = b) :
    l.drop a = l.drop b := by rw [h]

theorem pushLogLine_eq_drop (pfx : Styled) (ln : String) (buf : List Styled) :
    pushLogLine pfx ln buf =
      (buf ++ [pushedLine pfx ln]).drop ((buf.length + 1) - MAX_LOG_LINES) := by
  simp only [pushLogLine]
  split
  · apply drop_count_congr
    simp only [List.length_append, List.length_cons, List.length_nil]
  · rename_i hc
    simp only [List.length_append, List.length_cons, List.length_nil] at hc
    have h0 : buf.length + 1 - MAX_LOG_LINES = 0 := by omega
    rw [h0, List.drop_zero]

theorem pushLogLines_eq_drop (pfx : Styled) (lns : List String) :
    ∀ buf : List Styled, buf.length ≤ MAX_LOG_LINES →
      pushLogLines pfx buf lns =
        (buf ++ lns.map (pushedLine pfx)).drop
          ((buf.length + lns.length) - MAX_LOG_LINES) := by
  induction lns with
  | nil =>
    intro buf h
    simp only [pushLogLines, List.foldl_nil, List.map_nil, List.append_nil,
      List.length_nil]
    have h0 : buf.length + 0 - MAX_LOG_LINES = 0 := by omega
    rw [h0, List.drop_zero]
  | cons l ls ih =>
    intro buf h
    have step : pushLogLines pfx buf (l :: ls) =
        pushLogLines pfx (pushLogLine pfx l buf) ls := rfl
    rw [step, ih _ (length_pushLogLine pfx l buf h), pushLogLine_eq_drop pfx l buf]
    have hk : (buf.length + 1) - MAX_LOG_LINES ≤ (buf ++ [pushedLine pfx l]).length := by
      simp only [List.length_append, List.length_cons, List.length_nil]
      omega
    rw [← List.drop_append_of_le_length hk, List.drop_drop]
    have hassoc : (buf ++ [pushedLine pfx l]) ++ ls.map (pushedLine pfx) =
        buf ++ (l :: ls).map (pushedLine pfx) := by simp
    rw [hassoc]
    apply drop_count_congr
    simp only [List.length_drop, List.length_append, List.length_cons,
      List.length_nil, List.length_map]
    omega

/-- The stream-end insertion of a trailing unterminated line (source line
860): `if (partial) { logLines.push(pfx + partial); paint(); }` — the push
happens only for a non-empty trailing fragment and, unlike the inner
loop's insertions, is NOT followed by the `slice(-MAX_LOG_LINES)` cap. -/
def drainFlushTrailing (pfx : Styled) (trailing : String) (buf : List Styled) :
    List Styled :=
  if trailing = "" then buf else buf ++ [pfx ++ strS trailing]

/-! ### Action pipeline (doAction, source lines 744-773) -/

inductive CtlAction where
  | start | stop | restart
deriving DecidableEq, Repr

def ctlActionName : CtlAction → String
  | .start => "start"
  | .stop => "stop"
  | .restart => "restart"

/-- Backend result of `runAction` (src/service.ts): either a
`{ok, output}` record or a thrown error (captured by `doAction`'s
`catch`). -/
structure CtlResult where
  ok : Bool
  output : String
deriving DecidableEq, Repr

/-- The optimistic patch `doAction` applies on success (source lines
755-761). -/
def patchService (action : CtlAction) (s : ServiceInfo) : ServiceInfo :=
  match action with
  | .start => { s with active := true, status := "running" }
  | .stop => { s with active := false, status := "stopped" }
  | .restart => { s with active := true, status := "running" }

/-- The completed effect of one `doAction` call on `services` and `flash`,
as a function of the backend's response (source lines 744-773; `busy` is
set on entry and cleared in `finally`, so it is `false` again after the
call completes; the deferred `refresh` is a separate later event). -/
def doActionStep (action : CtlAction) (name msg : String)
    (r : Except String CtlResult) (services : List ServiceInfo) :
    List ServiceInfo × Flash :=
  match r with
  | .ok res =>
    if res.ok then
      (services.map (fun s => if s.name ≠ name then s else patchService action s),
        ⟨.success, "✓ " ++ msg⟩)
    else
      (services,
        ⟨.error, "✗ " ++ (if res.output = "" then ctlActionName action ++ " failed"
          else res.output)⟩)
  | .error e =>
    (services, ⟨.error, "✗ " ++ ctlActionName action ++ " failed: " ++ e⟩)

/-- C1: when the backend reports `ok = true`, exactly the records named
`name` are patched (start/restart ⇒ active, "running"; stop ⇒ inactive,
"stopped") with all other fields and all other records unchanged, and a
success notification is raised; when the backend reports `ok = false` or
throws, the services list is exactly the one from before the call and an
error notification is raised. -/
theorem doAction_optimistic (action : CtlAction) (name msg : String)
    (services : List ServiceInfo) :
    (∀ res : CtlResult, res.ok = true →
      (doActionStep action name msg (.ok res) services).2.tone = .success ∧
      (doActionStep action name msg (.ok res) services).1.length = services.length ∧
      (∀ (i : Nat) (s : ServiceInfo), services[i]? = some s →
        (s.name ≠ name → (doActionStep action name msg (.ok res) services).1[i]? = some s) ∧
        (s.name = name → ∃ s',
          (doActionStep action name msg (.ok res) services).1[i]? = some s' ∧
          s'.name = s.name ∧ s'.enabled = s.enabled ∧
          (action = .start ∨ action = .restart →
            s'.active = true ∧ s'.status = "running") ∧
          (action = .stop → s'.active = false ∧ s'.status = "stopped")))) ∧
    (∀ res : CtlResult, res.ok = false →
      (doActionStep action name msg (.ok res) services).1 = services ∧
      (doActionStep action name msg (.ok res) services).2.tone = .error) ∧
    (∀ e : String,
      (doActionStep action name msg (.error e) services).1 = services ∧
      (doActionStep action name msg (.error e) services).2.tone = .error) := by
  refine ⟨fun res hok => ?_, fun res hfail => ?_, fun e => ?_⟩
  · simp only [doActionStep, hok, if_true]
    refine ⟨by trivial, by simp, fun i s hs => ?_⟩
    constructor
    · intro hne
      rw [List.getElem?_map, hs]
      simp [hne]
    · intro heq
      refine ⟨patchService action s, ?_, ?_, ?_, ?_, ?_⟩
      · rw [List.getElem?_map, hs]
        simp [heq]
      · cases action <;> simp [patchService]
      · cases action <;> simp [patchService]
      · rintro (h | h) <;> subst h <;> simp [patchService]
      · rintro h; subst h; simp [patchService]
  · simp [doActionStep, hfail]
  · simp [doActionStep]

theorem doAction_optimistic_witness :
    (CtlResult.mk true "").ok = true ∧
    ([⟨"a", false, "dead", none⟩, ⟨"b", true, "up", some true⟩] :
        List ServiceInfo)[0]? = some ⟨"a", false, "dead", none⟩ ∧
    (doActionStep .start "a" "a started" (.ok ⟨true, ""⟩)
        [⟨"a", false, "dead", none⟩, ⟨"b", true, "up", some true⟩]).2.tone = .success := by
  refine ⟨rfl, rfl, ?_⟩
  exact (doAction_optimistic .start "a" "a started"
    [⟨"a", false, "dead", none⟩, ⟨"b", true, "up", some true⟩]).1 ⟨true, ""⟩ rfl |>.1

/-! ### Log tail multiplexer (source lines 828-876)

The asynchronous handlers are embedded as event-triggered transitions on
`AppState`: `stopLogs` and `startLogs` are the synchronous calls, while
`onLogExit pid code name` is the continuation of `await proc.exited`
inside `startLogs` (source lines 867-875), fired when the follower
subprocess with identity `pid` exits; `name` is the service name the
handler closed over.  Killing the subprocess is the only external effect
and is represented by dropping the `logProc` reference. -/

def stopLogs (goDash : Bool) (st : AppState) : AppState :=
  let st := { st with logProc := none }
  if goDash then { st with mode := .dashboard, logSvc := none } else st

def startLogs (name : String) (pid : Nat) (st : AppState) : AppState :=
  let st := stopLogs false st
  { st with logLines := [], logSvc := some name, mode := .logs, logProc := some pid }

/-- The exit-marker line `chalk.dim(`[exited: code]`)` (source line 871). -/
def exitMarker (code : Int) : Styled :=
  dim (strS ("[exited: " ++ toString code ++ "]"))

def onLogExit (pid : Nat) (code : Int) (name : String) (st : AppState) : AppState :=
  if st.logProc = some pid then
    let st := { st with logProc := none, logLines := st.logLines ++ [exitMarker code] }
    if code ≠ 0 then
      setFlash .error (name ++ " logs exited " ++ toString code) st
    else st
  else st

/-- C5 counterexample: the exit handler is guarded by `logProc === proc`,
so after an explicit stop (or replacement) the exiting follower appends no
marker.  Start a follower, stop it via Escape, then deliver its exit: the
buffer stays empty — no exit marker is appended — refuting "an exit marker
line is appended ... for any reason (… explicit stop …)".  Likewise a
replaced follower's exit appends nothing and leaves the new follower
streaming (not Idle). -/
theorem logExit_marker_cex :
    (onLogExit 1 0 "svc" (stopLogs true (startLogs "svc" 1 initState))).logLines = [] ∧
    (onLogExit 1 0 "a" (startLogs "b" 2 (startLogs "a" 1 initState))).logLines = [] ∧
    (onLogExit 1 0 "a" (startLogs "b" 2 (startLogs "a" 1 initState))).logProc = some 2 ∧
    (onLogExit 1 0 "a" (startLogs "b" 2 (startLogs "a" 1 initState))).mode = .logs := by
  refine ⟨rfl, rfl, rfl, rfl⟩

/-- C5 amended: when the exiting subprocess is still the current follower,
the exit marker is appended, an error notification is raised exactly when
the exit code is non-zero, and the multiplexer returns to Idle
(`logProc = none`); when it is not the current follower (explicit stop or
replacement already cleared or replaced `logProc`), the handler is a
no-op. -/
theorem logExit_marker (st : AppState) (pid : Nat) (code : Int) (name : String) :
    (st.logProc = some pid →
      (onLogExit pid code name st).logLines = st.logLines ++ [exitMarker code] ∧
      (onLogExit pid code name st).logProc = none ∧
      (code ≠ 0 → (onLogExit pid code name st).flash =
        some ⟨.error, name ++ " logs exited " ++ toString code⟩) ∧
      (code = 0 → (onLogExit pid code name st).flash = st.flash)) ∧
    (st.logProc ≠ some pid → onLogExit pid code name st = st) := by
  constructor
  · intro hcur
    simp only [onLogExit, hcur, if_pos rfl]
    by_cases hz : code = 0
    · subst hz
      simp [setFlash]
    · simp [setFlash, hz]
  · intro hne
    simp [onLogExit, hne]

theorem logExit_marker_witness :
    (startLogs "svc" 1 initState).logProc = some 1 ∧
    (onLogExit 1 3 "svc" (startLogs "svc" 1 initState)).logLines =
      (startLogs "svc" 1 initState).logLines ++ [exitMarker 3] := by
  refine ⟨rfl, ?_⟩
  exact ((logExit_marker (startLogs "svc" 1 initState) 1 3 "svc").1 rfl).1

/-- C2 counterexample: the 250-line cap is enforced only on the
completed-line insertion path.  After 250 completed single-line writes the
buffer holds exactly 250 lines; the stream-end push of a non-empty
trailing partial line (source line 860) then inserts without eviction,
leaving 251 lines, and the exit-marker push (source line 871), delivered
to a full buffer while the follower is still current, likewise leaves 251
lines — both exceeding the claimed 250-line bound. -/
theorem logBuffer_cap_cex :
    MAX_LOG_LINES <
      (drainFlushTrailing [] "tail"
        (pushLogLines [] [] (List.replicate 250 "a"))).length ∧
    MAX_LOG_LINES <
      (onLogExit 1 0 "svc" { initState with
        logProc := some 1,
        logLines := List.replicate 250 (strS "a") }).logLines.length := by
  constructor
  · have h := pushLogLines_eq_drop [] (List.replicate 250 "a") [] (by simp)
    have h250 : (pushLogLines [] [] (List.replicate 250 "a")).length = 250 := by
      rw [h]
      simp only [List.length_drop, List.length_map, List.length_replicate,
        List.nil_append, List.length_nil, MAX_LOG_LINES]
    simp only [drainFlushTrailing, if_neg (by decide : ¬ ("tail" : String) = "")]
    simp only [List.length_append, List.length_cons, List.length_nil, h250,
      MAX_LOG_LINES]
    omega
  · simp only [onLogExit]
    rw [if_pos trivial, if_neg (by decide : ¬ (0 : Int) ≠ 0)]
    simp only [List.length_append, List.length_cons, List.length_nil,
      List.length_replicate, MAX_LOG_LINES]
    omega

/-- C2 amended: completed-line insertions enforce the 250-line cap with
oldest-first eviction — from an empty buffer, 300 non-empty unprefixed
single-line writes leave exactly writes 51-300 in their original order —
but the stream-end push of a trailing partial line and the exit-marker
push insert without evicting, each growing the buffer by exactly one line
even when it is already full. -/
theorem logBuffer_cap_amended (pfx : Styled) (lns : List String) (buf : List Styled)
    (hbuf : buf.length ≤ MAX_LOG_LINES) :
    (pushLogLines pfx buf lns).length ≤ MAX_LOG_LINES ∧
    (buf = [] → pfx = [] → lns.length = 300 → (∀ l ∈ lns, l ≠ "") →
      pushLogLines pfx buf lns = (lns.drop 50).map strS) ∧
    (∀ trailing : String, trailing ≠ "" →
      (drainFlushTrailing pfx trailing buf).length = buf.length + 1) ∧
    (∀ (st : AppState) (pid : Nat) (code : Int) (name : String),
      st.logProc = some pid →
      (onLogExit pid code name st).logLines.length = st.logLines.length + 1) := by
  refine ⟨?_, ?_, ?_, ?_⟩
  · rw [pushLogLines_eq_drop pfx lns buf hbuf]
    simp only [List.length_drop, List.length_append, List.length_map]
    omega
  · intro hnil hpfx hlen hne
    subst hnil hpfx
    rw [pushLogLines_eq_drop [] lns [] (by simp)]
    have hmap : lns.map (pushedLine []) = lns.map strS := by
      apply List.map_congr_left
      intro l hl
      simp [pushedLine, hne l hl]
    simp only [List.nil_append, List.length_nil, Nat.zero_add, hmap, hlen]
    have : 300 - MAX_LOG_LINES = 50 := by simp [MAX_LOG_LINES]
    rw [this, List.map_drop]
  · intro trailing ht
    simp [drainFlushTrailing, ht]
  · intro st pid code name hcur
    simp only [onLogExit, hcur, if_pos rfl]
    by_cases hz : code = 0
    · subst hz
      simp
    · simp [setFlash, hz]

theorem logBuffer_cap_amended_witness :
    (pushLogLines [] (List.replicate 250 (strS "x")) ["y"]).length ≤ MAX_LOG_LINES ∧
    pushLogLines [] [] (List.replicate 300 "a") =
      ((List.replicate 300 "a").drop 50).map strS ∧
    (drainFlushTrailing [] "x" (List.replicate 250 (strS "a"))).length =
      (List.replicate 250 (strS "a")).length + 1 := by
  have h250 : (List.replicate 250 (strS "x")).length ≤ MAX_LOG_LINES := by
    rw [List.length_replicate]
    decide
  have hfull : (List.replicate 250 (strS "a")).length ≤ MAX_LOG_LINES := by
    rw [List.length_replicate]
    decide
  have h300 : (List.replicate 300 "a").length = 300 := List.length_replicate 300 "a"
  have hne : ∀ l ∈ List.replicate 300 "a", l ≠ "" := by
    intro l hl
    rw [List.eq_of_mem_replicate hl]
    decide
  refine ⟨(logBuffer_cap_amended [] ["y"] (List.replicate 250 (strS "x")) h250).1,
    (logBuffer_cap_amended [] (List.replicate 300 "a") [] (by decide)).2.1
      rfl rfl h300 hne,
    (logBuffer_cap_amended [] [] (List.replicate 250 (strS "a")) hfull).2.2.1
      "x" (by decide)⟩

/-! ### Frame rendering (source lines 880-1075)

`process.platform` and `process.cwd()` are environment values, modelled as
constants; their contents never affect the verified properties.  JS
`Array.prototype.slice(start, stop)` is used by the source only with
`0 ≤ start ≤ stop`, which `sliceIE` models.  `Math.floor(cw * 0.28)` is
modelled by exact floor division `(cw * 28).fdiv 100`. -/

def processPlatform : String := "linux"
def processCwd : String := "/home/user"

def sliceIE {α : Type} (l : List α) (start stop : Int) : List α :=
  (l.drop start.toNat).take (stop - start).toNat

/-- JS indexing `l[i]` yielding `undefined` when out of range. -/
def jsIndex {α : Type} (l : List α) (i : Int) : Option α :=
  if i < 0 then none else l[i.toNat]?

/-- `renderStatus(w)` (source lines 880-887). -/
def renderStatus (st : AppState) (w : Nat) : Styled :=
  match st.flash with
  | some f =>
    let fn := match f.tone with
      | .success => green
      | .error => red
      | .info => cyan
    row (fn (strS f.text)) w
  | none =>
    if st.busy then
      row (cyan (strS (SPINNER.getD (st.spinnerFrame % SPINNER.length) "") ++
        strS " Working...")) w
    else emptyRow w

/-- `hintBar(hints, w)` (source lines 891-894); `Array.prototype.join`. -/
def joinSep (sep : Styled) : List Styled → Styled
  | [] => []
  | [x] => x
  | x :: xs => x ++ sep ++ joinSep sep xs

def hintBar (hints : List (String × String)) (w : Nat) : Styled :=
  row (joinSep (dim (strS "  ·  "))
    (hints.map fun p => bold (strS p.1) ++ strS " " ++ dim (strS p.2))) w

/-- One service row of the dashboard table (source lines 942-954). -/
def dashboardRow (sel : Int) (start : Int) (nw sw ew : Int) (w : Nat)
    (p : Nat × ServiceInfo) : Styled :=
  let s := p.2
  let isSel := start + (p.1 : Int) = sel
  let dot := if s.active then green (strS "●") else red (strS "●")
  let nameCol := cyan (fit (strS s.name) nw)
  let statusCol := (if s.active then green else red) (fit (strS s.status) sw)
  let enabledCol := match s.enabled with
    | none => dim (fit (strS "—") ew)
    | some true => green (fit (strS "yes") ew)
    | some false => dim (fit (strS "no") ew)
  let pointer := if isSel then yellow (strS "❯") else strS " "
  let content := pointer ++ strS " " ++ dot ++ strS " " ++ nameCol ++ strS " " ++
    statusCol ++ strS " " ++ enabledCol
  if isSel then highlightRow content w else row content w

/-- `paintDashboard(w, h)` (source lines 898-973).  The function reads and
reassigns the global `sel` (line 901); the updated state is returned
alongside the frame lines. -/
def paintDashboard (st : AppState) (w h : Nat) : AppState × List Styled :=
  let filtered := getFiltered st
  let sel := clamp st.sel 0 (max 0 ((filtered.length : Int) - 1))
  let running := (st.services.filter (·.active)).length
  let total := st.services.length
  let fixed : Nat := 5
  let maxRows : Nat := max 1 (h - fixed)
  let se := visRange (filtered.length : Int) sel (maxRows : Int)
  let vis := sliceIE filtered se.1 se.2
  let cw : Int := (w : Int) - (PAD_X : Int) * 2
  let ew : Int := 10
  let sw : Int := min 30 (max 12 ((cw * 28).fdiv 100))
  let nw : Int := max 8 (cw - sw - ew - 4)
  let summary :=
    if 0 < total then
      dim (strS (toString total ++ " services ·")) ++ strS " " ++
      green (strS (toString running ++ " running")) ++ strS " " ++
      dim (strS "·") ++ strS " " ++
      red (strS (toString (total - running) ++ " stopped"))
    else dim (strS "no services")
  let headerRow := row (bold (strS "lazyctl") ++ strS "  " ++
    dim (strS processPlatform) ++ strS "  " ++ summary) w
  let searchRow :=
    if st.searching || st.searchQuery ≠ "" then
      let cursor := if st.searching then inverse (strS " ") else []
      let matchInfo := if st.searchQuery ≠ "" then
        dim (strS (" (" ++ toString filtered.length ++ " matches)")) else []
      row (yellow (strS "/") ++ strS " " ++ strS st.searchQuery ++
        cursor ++ matchInfo) w
    else emptyRow w
  let colHeader := row (strS "  " ++ dim (strS "●") ++ strS " " ++
    dim (fit (strS "NAME") nw) ++ strS " " ++ dim (fit (strS "STATUS") sw) ++
    strS " " ++ dim (fit (strS "ENABLED") ew)) w
  let svcRows :=
    if vis.isEmpty then
      let msg := if st.searchQuery ≠ "" then
        dim (strS "  No matches. Press ") ++ bold (strS "Esc") ++
          dim (strS " to clear search.")
      else
        dim (strS "  No services found. Press ") ++ bold (strS "a") ++
          dim (strS " to add one.")
      [row msg w]
    else vis.enum.map (dashboardRow sel se.1 nw sw ew w)
  let body := headerRow :: searchRow :: colHeader :: svcRows
  let fill := List.replicate ((h - 2) - body.length) (emptyRow w)
  let toggleLabel := match jsIndex filtered sel with
    | some svc => if svc.active then "stop" else "start"
    | none => "start"
  let footer := hintBar [("↑↓", "move"), ("s", toggleLabel), ("r", "restart"),
    ("l", "logs"), ("a", "add"), ("d", "remove"), ("/", "search"),
    ("esc", "quit")] w
  ({ st with sel := sel }, body ++ fill ++ [renderStatus st w, footer])

/-- `paintAdd(w, h)` (source lines 977-1026). -/
def paintAdd (st : AppState) (w h : Nat) : List Styled :=
  let headerRow := row (bold (strS "Add Service")) w
  let formLines : Int := 5
  let contentArea : Int := (h : Int) - 4
  let padTop : Nat := (max 0 ((contentArea - formLines).fdiv 2)).toNat
  let label1 := dim (strS "Name    ")
  let label2 := dim (strS "Command ")
  let cur := inverse (strS " ")
  let val1 :=
    if st.addForm.field = 0 then strS st.addForm.name ++ cur
    else if st.addForm.name ≠ "" then strS st.addForm.name
    else dimItalic (strS "com.user.my-app")
  let val2 :=
    if st.addForm.field = 1 then strS st.addForm.command ++ cur
    else if st.addForm.command ≠ "" then strS st.addForm.command
    else dimItalic (strS "/usr/local/bin/myapp --port 3000")
  let field1 := yellow (strS "❯") ++ strS " " ++ label1 ++ strS " " ++ val1
  let field2 := yellow (strS "❯") ++ strS " " ++ label2 ++ strS " " ++ val2
  let inact1 := strS "  " ++ label1 ++ strS " " ++ val1
  let inact2 := strS "  " ++ label2 ++ strS " " ++ val2
  let body := headerRow :: emptyRow w :: (List.replicate padTop (emptyRow w) ++
    [(if st.addForm.field = 0 then highlightRow field1 w else row inact1 w),
     (if st.addForm.field = 1 then highlightRow field2 w else row inact2 w),
     emptyRow w,
     row (dim (strS ("  CWD     " ++ processCwd))) w,
     emptyRow w])
  let fill := List.replicate ((h - 2) - body.length) (emptyRow w)
  body ++ fill ++ [renderStatus st w,
    hintBar [("enter", "save"), ("tab", "switch"), ("esc", "cancel")] w]

/-- `paintLogs(w, h)` (source lines 1030-1061).  The function reassigns
the global `logScroll`, clamping it (line 1041); the updated state is
returned alongside the frame lines.  The header is built from the
pre-clamp `logScroll` value, as in the source. -/
def paintLogs (st : AppState) (w h : Nat) : AppState × List Styled :=
  let scrollInfo := if 0 < st.logScroll then yellow (strS (" ↑" ++ toString st.logScroll))
    else dim (strS " (live)")
  let headerRow := row (bold (strS "Logs") ++ strS "  " ++
    cyan (strS (st.logSvc.getD "")) ++ scrollInfo) w
  let maxRows : Nat := max 1 (h - 4)
  let total := st.logLines.length
  let logScroll := clamp st.logScroll 0 (max 0 ((total : Int) - (maxRows : Int)))
  let contentRows :=
    if total = 0 then [row (dim (strS "Waiting for output...")) w]
    else
      let endIdx : Int := max 0 ((total : Int) - logScroll)
      let startIdx : Int := max 0 (endIdx - (maxRows : Int))
      (sliceIE st.logLines startIdx endIdx).map fun ln => row ln w
  let body := headerRow :: emptyRow w :: contentRows
  let fill := List.replicate ((h - 2) - body.length) (emptyRow w)
  ({ st with logScroll := logScroll },
    body ++ fill ++ [renderStatus st w, hintBar [("↑↓", "scroll"), ("esc", "back")] w])

/-- `paint()` (source lines 1065-1075): clamp the terminal dimensions,
dispatch on the mode, and keep only the first `h` lines
(`lines.slice(0, h)`).  Also returns the state as mutated by the paint
functions. -/
def render (st : AppState) (cols rows : Nat) : AppState × List Styled :=
  let w := max 2 cols
  let h := max 3 rows
  match st.mode with
  | .dashboard =>
    let r := paintDashboard st w h
    (r.1, r.2.take h)
  | .add => (st, (paintAdd st w h).take h)
  | .logs =>
    let r := paintLogs st w h
    (r.1, r.2.take h)

/-! ### Render state effects (claims C4 and C6) -/

theorem clamp_clamp (v hi : Int) : clamp (clamp v 0 hi) 0 hi = clamp v 0 hi := by
  simp only [clamp]
  omega

theorem paintDashboard_fst (st : AppState) (w h : Nat) :
    (paintDashboard st w h).1 =
      { st with sel := clamp st.sel 0 (max 0 (((getFiltered st).length : Int) - 1)) } := rfl

theorem paintLogs_fst (st : AppState) (w h : Nat) :
    (paintLogs st w h).1 =
      { st with logScroll := (clamp st.logScroll 0
          (max 0 ((st.logLines.length : Int) - ((max 1 (h - 4) : Nat) : Int)))) } := rfl

theorem getFiltered_set_sel (st : AppState) (c : Int) :
    getFiltered { st with sel := c } = getFiltered st := rfl

theorem render_fst_dashboard (st : AppState) (cols rows : Nat)
    (hm : st.mode = .dashboard) :
    (render st cols rows).1 = (paintDashboard st (max 2 cols) (max 3 rows)).1 := by
  simp only [render, hm]

theorem render_fst_add (st : AppState) (cols rows : Nat) (hm : st.mode = .add) :
    (render st cols rows).1 = st := by
  simp only [render, hm]

theorem render_fst_logs (st : AppState) (cols rows : Nat) (hm : st.mode = .logs) :
    (render st cols rows).1 = (paintLogs st (max 2 cols) (max 3 rows)).1 := by
  simp only [render, hm]

/-- C4 counterexample: rendering is not free of state effects.  With an
empty service list and `sel = 5`, one render of the dashboard resets the
selection index to 0; with an empty log buffer and `logScroll = 7`, one
render of the log view resets the scroll offset to 0. -/
theorem render_not_pure_cex :
    ((render { initState with sel := 5 } 2 3).1).sel ≠
      ({ initState with sel := 5 } : AppState).sel ∧
    ((render { initState with mode := .logs, logScroll := 7 } 2 3).1).logScroll ≠
      ({ initState with mode := .logs, logScroll := 7 } : AppState).logScroll := by
  exact ⟨by decide, by decide⟩

/-- C4 amended: rendering never alters any component of the application
state other than the selection index and the log scroll offset, which it
clamps into range; the clamp is idempotent, so the state reached after one
render is a fixed point of rendering. -/
theorem render_clamp_amended (st : AppState) (cols rows : Nat) :
    ((render st cols rows).1.services = st.services ∧
     (render st cols rows).1.mode = st.mode ∧
     (render st cols rows).1.busy = st.busy ∧
     (render st cols rows).1.flash = st.flash ∧
     (render st cols rows).1.addForm = st.addForm ∧
     (render st cols rows).1.logSvc = st.logSvc ∧
     (render st cols rows).1.logLines = st.logLines ∧
     (render st cols rows).1.logProc = st.logProc ∧
     (render st cols rows).1.spinnerFrame = st.spinnerFrame ∧
     (render st cols rows).1.searchQuery = st.searchQuery ∧
     (render st cols rows).1.searching = st.searching ∧
     (render st cols rows).1.confirmRemove = st.confirmRemove) ∧
    (render ((render st cols rows).1) cols rows).1 = (render st cols rows).1 := by
  cases hm : st.mode
  case dashboard =>
    rw [render_fst_dashboard st cols rows hm, paintDashboard_fst]
    refine ⟨⟨rfl, hm, rfl, rfl, rfl, rfl, rfl, rfl, rfl, rfl, rfl, rfl⟩, ?_⟩
    have hm2 : ({ st with sel := (clamp st.sel 0
        (max 0 (((getFiltered st).length : Int) - 1))) } : AppState).mode =
        Mode.dashboard := hm
    rw [render_fst_dashboard _ cols rows hm2, paintDashboard_fst]
    simp only [getFiltered_set_sel, clamp_clamp]
  case add =>
    rw [render_fst_add st cols rows hm]
    exact ⟨⟨rfl, hm, rfl, rfl, rfl, rfl, rfl, rfl, rfl, rfl, rfl, rfl⟩,
      render_fst_add st cols rows hm⟩
  case logs =>
    rw [render_fst_logs st cols rows hm, paintLogs_fst]
    refine ⟨⟨rfl, hm, rfl, rfl, rfl, rfl, rfl, rfl, rfl, rfl, rfl, rfl⟩, ?_⟩
    have hm2 : ({ st with logScroll := (clamp st.logScroll 0
        (max 0 ((st.logLines.length : Int) -
          ((max 1 (max 3 rows - 4) : Nat) : Int)))) } : AppState).mode =
        Mode.logs := hm
    rw [render_fst_logs _ cols rows hm2, paintLogs_fst]
    simp only [clamp_clamp]

/-- C6: in the log view, after any mutation of the scroll offset, one
render clamps it into `[0, max(0, totalLines - viewportHeight)]`, where
the viewport height is `max(1, h - 4)` for the clamped terminal height
`h = max(3, rows)`; this holds for every backlog length including an
empty one. -/
theorem logScroll_clamped (st : AppState) (cols rows : Nat) (hm : st.mode = .logs) :
    0 ≤ (render st cols rows).1.logScroll ∧
    (render st cols rows).1.logScroll ≤
      max 0 ((st.logLines.length : Int) - ((max 1 (max 3 rows - 4) : Nat) : Int)) := by
  rw [render_fst_logs st cols rows hm, paintLogs_fst]
  simp only [clamp]
  omega

theorem logScroll_clamped_witness :
    ({ initState with mode := .logs, logScroll := 7 } : AppState).mode = .logs ∧
    0 ≤ (render { initState with mode := .logs, logScroll := 7 } 80 24).1.logScroll ∧
    (render { initState with mode := .logs, logScroll := 7 } 80 24).1.logScroll ≤
      max 0 ((({ initState with mode := .logs, logScroll := 7 } :
        AppState).logLines.length : Int) - ((max 1 (max 3 24 - 4) : Nat) : Int)) :=
  ⟨rfl, logScroll_clamped { initState with mode := .logs, logScroll := 7 } 80 24 rfl⟩

/-! ### Frame dimensions (claim C7) -/

theorem visibleWidth_hintBar (hints : List (String × String)) (w : Nat) :
    visibleWidth (hintBar hints w) = w := visibleWidth_row _ w

theorem visibleWidth_renderStatus (st : AppState) (w : Nat) :
    visibleWidth (renderStatus st w) = w := by
  unfold renderStatus
  cases st.flash with
  | some f => cases f.tone <;> simp [visibleWidth_row]
  | none => cases hb : st.busy <;> simp [hb, visibleWidth_row, visibleWidth_emptyRow]

theorem visibleWidth_dashboardRow (sel start nw sw ew : Int) (w : Nat)
    (p : Nat × ServiceInfo) :
    visibleWidth (dashboardRow sel start nw sw ew w p) = w := by
  simp only [dashboardRow]
  split
  · exact visibleWidth_highlightRow _ w
  · exact visibleWidth_row _ w

theorem widths_paintDashboard (st : AppState) (w h : Nat) :
    ∀ l ∈ (paintDashboard st w h).2, visibleWidth l = w := by
  intro l hl
  simp only [paintDashboard] at hl
  rcases List.mem_append.mp hl with hbf | hsf
  · rcases List.mem_append.mp hbf with hb | hfill
    · rcases List.mem_cons.mp hb with h1 | hb
      · subst h1; exact visibleWidth_row _ w
      rcases List.mem_cons.mp hb with h2 | hb
      · subst h2
        split
        · exact visibleWidth_row _ w
        · exact visibleWidth_emptyRow w
      rcases List.mem_cons.mp hb with h3 | hsvc
      · subst h3; exact visibleWidth_row _ w
      split at hsvc
      · rw [List.mem_singleton] at hsvc
        subst hsvc; exact visibleWidth_row _ w
      · rcases List.mem_map.mp hsvc with ⟨p, _, hp⟩
        rw [← hp]; exact visibleWidth_dashboardRow _ _ _ _ _ w p
    · rw [(List.mem_replicate.mp hfill).2]; exact visibleWidth_emptyRow w
  · rcases List.mem_cons.mp hsf with hstat | hf
    · subst hstat; exact visibleWidth_renderStatus st w
    rcases List.mem_cons.mp hf with hfoot | hnil
    · subst hfoot; exact visibleWidth_hintBar _ w
    · exact absurd hnil (List.not_mem_nil l)

theorem widths_paintAdd (st : AppState) (w h : Nat) :
    ∀ l ∈ paintAdd st w h, visibleWidth l = w := by
  intro l hl
  simp only [paintAdd] at hl
  rcases List.mem_append.mp hl with hbf | hsf
  · rcases List.mem_append.mp hbf with hb | hfill
    · rcases List.mem_cons.mp hb with h1 | hb
      · subst h1; exact visibleWidth_row _ w
      rcases List.mem_cons.mp hb with h2 | hb
      · subst h2; exact visibleWidth_emptyRow w
      rcases List.mem_append.mp hb with hpad | hfields
      · rw [(List.mem_replicate.mp hpad).2]; exact visibleWidth_emptyRow w
      rcases List.mem_cons.mp hfields with hf1 | hr
      · subst hf1
        split
        · exact visibleWidth_highlightRow _ w
        · exact visibleWidth_row _ w
      rcases List.mem_cons.mp hr with hf2 | hr
      · subst hf2
        split
        · exact visibleWidth_highlightRow _ w
        · exact visibleWidth_row _ w
      rcases List.mem_cons.mp hr with he1 | hr
      · subst he1; exact visibleWidth_emptyRow w
      rcases List.mem_cons.mp hr with hcwd | hr
      · subst hcwd; exact visibleWidth_row _ w
      rcases List.mem_cons.mp hr with he2 | hnil
      · subst he2; exact visibleWidth_emptyRow w
      · exact absurd hnil (List.not_mem_nil l)
    · rw [(List.mem_replicate.mp hfill).2]; exact visibleWidth_emptyRow w
  · rcases List.mem_cons.mp hsf with hstat | hf
    · subst hstat; exact visibleWidth_renderStatus st w
    rcases List.mem_cons.mp hf with hfoot | hnil
    · subst hfoot; exact visibleWidth_hintBar _ w
    · exact absurd hnil (List.not_mem_nil l)

theorem widths_paintLogs (st : AppState) (w h : Nat) :
    ∀ l ∈ (paintLogs st w h).2, visibleWidth l = w := by
  intro l hl
  simp only [paintLogs] at hl
  rcases List.mem_append.mp hl with hbf | hsf
  · rcases List.mem_append.mp hbf with hb | hfill
    · rcases List.mem_cons.mp hb with h1 | hb
      · subst h1; exact visibleWidth_row _ w
      rcases List.mem_cons.mp hb with h2 | hlog
      · subst h2; exact visibleWidth_emptyRow w
      split at hlog
      · rw [List.mem_singleton] at hlog
        subst hlog; exact visibleWidth_row _ w
      · rcases List.mem_map.mp hlog with ⟨ln, _, hln⟩
        rw [← hln]; exact visibleWidth_row _ w
    · rw [(List.mem_replicate.mp hfill).2]; exact visibleWidth_emptyRow w
  · rcases List.mem_cons.mp hsf with hstat | hf
    · subst hstat; exact visibleWidth_renderStatus st w
    rcases List.mem_cons.mp hf with hfoot | hnil
    · subst hfoot; exact visibleWidth_hintBar _ w
    · exact absurd hnil (List.not_mem_nil l)

theorem length_paintDashboard (st : AppState) (w h : Nat) :
    h ≤ (paintDashboard st w h).2.length := by
  simp only [paintDashboard, List.length_append, List.length_cons,
    List.length_replicate]
  split <;>
    simp only [List.length_append, List.length_cons, List.length_replicate,
      List.length_map, List.length_nil, List.enum_length] <;>
    omega

theorem length_paintAdd (st : AppState) (w h : Nat) :
    h ≤ (paintAdd st w h).length := by
  simp only [paintAdd, List.length_append, List.length_cons,
    List.length_replicate, List.length_nil]
  omega

theorem length_paintLogs (st : AppState) (w h : Nat) :
    h ≤ (paintLogs st w h).2.length := by
  simp only [paintLogs, List.length_append, List.length_cons,
    List.length_replicate]
  split <;>
    simp only [List.length_append, List.length_cons, List.length_replicate,
      List.length_map, List.length_nil] <;>
    omega

/-- C7: for all states and all terminal dimensions at or above the
engine's minimum (`width ≥ 2`, `height ≥ 3`, the floors `paint` itself
imposes), the rendered frame consists of exactly `height` lines and every
line occupies exactly `width` display columns, in all three modes. -/
theorem render_frame_dims (st : AppState) (cols rows : Nat)
    (hw : 2 ≤ cols) (hh : 3 ≤ rows) :
    ((render st cols rows).2).length = rows ∧
    ∀ l ∈ (render st cols rows).2, visibleWidth l = cols := by
  have hw2 : max 2 cols = cols := by omega
  have hh2 : max 3 rows = rows := by omega
  cases hm : st.mode
  case dashboard =>
    have h2 : (render st cols rows).2 =
        ((paintDashboard st (max 2 cols) (max 3 rows)).2).take (max 3 rows) := by
      simp only [render, hm]
    rw [h2, hw2, hh2]
    refine ⟨?_, fun l hl => widths_paintDashboard st cols rows l (List.mem_of_mem_take hl)⟩
    rw [List.length_take]
    have := length_paintDashboard st cols rows
    omega
  case add =>
    have h2 : (render st cols rows).2 =
        (paintAdd st (max 2 cols) (max 3 rows)).take (max 3 rows) := by
      simp only [render, hm]
    rw [h2, hw2, hh2]
    refine ⟨?_, fun l hl => widths_paintAdd st cols rows l (List.mem_of_mem_take hl)⟩
    rw [List.length_take]
    have := length_paintAdd st cols rows
    omega
  case logs =>
    have h2 : (render st cols rows).2 =
        ((paintLogs st (max 2 cols) (max 3 rows)).2).take (max 3 rows) := by
      simp only [render, hm]
    rw [h2, hw2, hh2]
    refine ⟨?_, fun l hl => widths_paintLogs st cols rows l (List.mem_of_mem_take hl)⟩
    rw [List.length_take]
    have := length_paintLogs st cols rows
    omega

theorem render_frame_dims_witness :
    2 ≤ 80 ∧ 3 ≤ 24 ∧ ((render initState 80 24).2).length = 24 :=
  ⟨by decide, by decide, (render_frame_dims initState 80 24 (by decide) (by decide)).1⟩

/-! ### Line-diff painting (flush, source lines 613-625)

`flush` walks row indices up to the longer of the new and previous frames:
rows past the end of the new frame are cleared, rows differing from the
previous frame are repositioned-cleared-redrawn, equal rows produce
nothing.  `write` is invoked only when at least one such command was
generated (`if (content) write(...)`), so an empty command list is exactly
"zero bytes written to the terminal". -/

inductive PaintCmd where
  | clearLine (i : Nat)
  | drawLine (i : Nat) (s : Styled)
deriving DecidableEq, Repr

def flushCmds (prev lines : List Styled) : List PaintCmd :=
  (List.range (max lines.length prev.length)).filterMap fun i =>
    if lines.length ≤ i then some (.clearLine i)
    else if lines[i]? = prev[i]? then none
    else some (.drawLine i (lines.getD i []))

/-- One full `paint()` cycle (source lines 1065-1075 plus `flush`):
render, diff against the previous frame, and record the new frame as the
previous one for the next cycle. -/
def paintStep (st : AppState) (prev : List Styled) (cols rows : Nat) :
    AppState × List Styled × List PaintCmd :=
  let r := render st cols rows
  (r.1, r.2, flushCmds prev r.2)

theorem flushCmds_self (lines : List Styled) : flushCmds lines lines = [] := by
  unfold flushCmds
  rw [Nat.max_self, List.filterMap_eq_nil_iff]
  intro i hi
  rw [List.mem_range] at hi
  rw [if_neg (by omega), if_pos rfl]

/-- C8: painting is an idempotent diff.  Rendering the same state twice in
a row, with the first paint's frame recorded as the previous frame, makes
every line of the second frame equal the corresponding previous line, so
the second paint emits no terminal write commands at all. -/
theorem paint_idempotent_diff (st : AppState) (prev : List Styled) (cols rows : Nat) :
    (paintStep st (paintStep st prev cols rows).2.1 cols rows).2.2 = [] := by
  show flushCmds (render st cols rows).2 (render st cols rows).2 = []
  exact flushCmds_self _

/-! ### Input handling (onKey, source lines 1079-1183)

`onKey` receives a raw byte buffer; it is modelled by its decoded UTF-8
string `s`.  The byte-level tests translate as: `buf.length === 1 &&
buf[0] === B` (for an ASCII byte `B`) holds exactly when `s` is the
one-character string of `B`; `buf[0] >= 0x20` holds exactly when the first
code point of `s` is ≥ 0x20, because the leading byte of a multi-byte
UTF-8 character is ≥ 0xC2.  The side effects dispatched to the action
pipeline and the log multiplexer are returned as an explicit effect list;
`out.rows` and the identity of a freshly spawned follower are passed as
parameters. -/

inductive Effect where
  | shutdownE
  | runActionE (a : CtlAction) (name msg : String)
  | submitAddE
  | removeE (name : String)
  | spawnLogsE (name : String)
deriving DecidableEq, Repr

def firstGe32 (s : String) : Bool :=
  match s.data with
  | [] => false
  | c :: _ => decide (0x20 ≤ c.toNat)

/-- The decoded key flags computed at the top of `onKey` (source lines
1084-1092). -/
structure KeyFlags where
  up : Bool
  down : Bool
  pgUp : Bool
  pgDn : Bool
  esc : Bool
  enter : Bool
  back : Bool
  tab : Bool
  ch : Option String
deriving DecidableEq, Repr

def decodeKey (s : String) : KeyFlags :=
  { up := s == "\x1b[A"
    down := s == "\x1b[B"
    pgUp := s == "\x1b[5~"
    pgDn := s == "\x1b[6~"
    esc := s == "\x1b"
    enter := s == "\r"
    back := (s == "\x7f") || (s == "\x08")
    tab := s == "\t"
    ch := if !leadsWith "\x1b".data s.data && decide (0 < s.length) && firstGe32 s
      then some s else none }

/-- Logs-mode key handling (source lines 1095-1103). -/
def onKeyLogs (rows : Nat) (k : KeyFlags) (st : AppState) :
    AppState × List Effect :=
  if k.esc then
    ({ (stopLogs true st) with
        logScroll := 0, flash := some ⟨.info, "Returned to dashboard"⟩ }, [])
  else
    let pageSize : Int := max 1 ((rows : Int) - 4)
    if k.up then ({ st with logScroll := st.logScroll + 1 }, [])
    else if k.down then ({ st with logScroll := max 0 (st.logScroll - 1) }, [])
    else if k.pgUp then ({ st with logScroll := st.logScroll + pageSize }, [])
    else if k.pgDn then ({ st with logScroll := max 0 (st.logScroll - pageSize) }, [])
    else (st, [])

/-- Add-form key handling (source lines 1106-1126); never reads `busy`. -/
def onKeyAdd (k : KeyFlags) (st : AppState) : AppState × List Effect :=
  if k.esc then
    ({ st with
        addForm := ⟨"", "", 0⟩, mode := .dashboard,
        flash := some ⟨.info, "Canceled"⟩ }, [])
  else if k.up || k.down || k.tab then
    ({ st with addForm :=
        { st.addForm with field := if st.addForm.field = 0 then 1 else 0 } }, [])
  else if k.enter then
    if st.addForm.field = 0 then
      ({ st with addForm := { st.addForm with field := 1 } }, [])
    else (st, [.submitAddE])
  else if k.back then
    (if st.addForm.field = 0 then
      { st with addForm := { st.addForm with name := st.addForm.name.dropRight 1 } }
     else
      { st with addForm :=
          { st.addForm with command := st.addForm.command.dropRight 1 } }, [])
  else match k.ch with
    | some c =>
      (if st.addForm.field = 0 then
        { st with addForm := { st.addForm with name := st.addForm.name ++ c } }
       else
        { st with addForm := { st.addForm with command := st.addForm.command ++ c } },
       [])
    | none => (st, [])

/-- Dashboard key handling, including confirm-remove and search sub-modes
(source lines 1129-1183). -/
def onKeyDashboard (rows freshPid : Nat) (k : KeyFlags) (st : AppState) :
    AppState × List Effect :=
  match st.confirmRemove with
  | some target =>
    if k.ch = some "y" ∨ k.ch = some "Y" then
      ({ st with confirmRemove := none }, [.removeE target])
    else
      ({ st with
          confirmRemove := none, flash := some ⟨.info, "Remove canceled"⟩ }, [])
  | none =>
    if st.searching then
      if k.esc then ({ st with searching := false, searchQuery := "", sel := 0 }, [])
      else if k.enter then ({ st with searching := false }, [])
      else if k.back then
        ({ st with searchQuery := st.searchQuery.dropRight 1, sel := 0 }, [])
      else
        let filtered := getFiltered st
        if k.up then ({ st with sel := max 0 (st.sel - 1) }, [])
        else if k.down then
          ({ st with sel := min (max 0 ((filtered.length : Int) - 1)) (st.sel + 1) }, [])
        else match k.ch with
          | some c => ({ st with searchQuery := st.searchQuery ++ c, sel := 0 }, [])
          | none => (st, [])
    else if k.esc && st.searchQuery != "" then
      ({ st with searchQuery := "", sel := 0 }, [])
    else if k.esc then (st, [.shutdownE])
    else if st.busy then (st, [])
    else
      let filtered := getFiltered st
      let pageSize : Int := max 1 ((rows : Int) - 5)
      if k.up || (k.ch == some "k") then ({ st with sel := max 0 (st.sel - 1) }, [])
      else if k.down || (k.ch == some "j") then
        ({ st with sel := min (max 0 ((filtered.length : Int) - 1)) (st.sel + 1) }, [])
      else if k.pgUp then ({ st with sel := max 0 (st.sel - pageSize) }, [])
      else if k.pgDn then
        ({ st with sel := min (max 0 ((filtered.length : Int) - 1)) (st.sel + pageSize) }, [])
      else if k.ch = some "/" then ({ st with searching := true }, [])
      else if k.ch = some "a" then
        ({ st with addForm := ⟨"", "", 0⟩, mode := .add }, [])
      else match jsIndex filtered st.sel with
      | none =>
        (match k.ch with
         | some c =>
           if containsSub "srld" c then setFlash .info "No service selected" st else st
         | none => st, [])
      | some svc =>
        if k.ch = some "s" then
          let a := if svc.active then CtlAction.stop else CtlAction.start
          (st, [.runActionE a svc.name
            (svc.name ++ " " ++ (if svc.active then "stopped" else "started"))])
        else if k.ch = some "r" then
          (st, [.runActionE .restart svc.name (svc.name ++ " restarted")])
        else if k.ch = some "d" then
          (setFlash .info ("Remove " ++ svc.name ++ "? Press y to confirm")
            { st with confirmRemove := some svc.name }, [])
        else if k.ch = some "l" then
          (startLogs svc.name freshPid { st with logScroll := 0 },
            [.spawnLogsE svc.name])
        else (st, [])

def onKey (rows freshPid : Nat) (st : AppState) (s : String) :
    AppState × List Effect :=
  if s = "\x03" then (st, [.shutdownE]) else
  let k := decodeKey s
  if st.mode = .logs then onKeyLogs rows k st
  else if st.mode = .add then onKeyAdd k st
  else onKeyDashboard rows freshPid k st

theorem onKeyAdd_busy (k : KeyFlags) (st : AppState) (b : Bool) :
    onKeyAdd k { st with busy := b } =
      ({ (onKeyAdd k st).1 with busy := b }, (onKeyAdd k st).2) := by
  simp only [onKeyAdd]
  split
  · rfl
  split
  · rfl
  split
  · split <;> rfl
  split
  · split <;> rfl
  split
  · split <;> rfl
  · rfl

/-- C10: the `busy` flag gates key input only on the dashboard key path.
In AddForm mode the handler never consults `busy` — its result on any key
is the same state change and the same effects however `busy` is set — and
in particular, with the command field focused and `busy = true`, an Enter
key still dispatches the form submission, so a second create can start
while one is in flight.  In dashboard mode (outside search and
confirm-remove) `busy = true` swallows the `s` key entirely. -/
theorem busy_gates_only_dashboard (rows freshPid : Nat) :
    (∀ st : AppState, st.mode = .add → st.addForm.field = 1 → st.busy = true →
      onKey rows freshPid st "\r" = (st, [.submitAddE])) ∧
    (∀ (st : AppState) (s : String) (b : Bool), st.mode = .add →
      onKey rows freshPid { st with busy := b } s =
        ({ (onKey rows freshPid st s).1 with busy := b },
          (onKey rows freshPid st s).2)) ∧
    (∀ st : AppState, st.mode = .dashboard → st.searching = false →
      st.confirmRemove = none → st.busy = true →
      onKey rows freshPid st "s" = (st, [])) := by
  refine ⟨fun st hm hf _ => ?_, fun st s b hm => ?_, fun st hm hs hc hb => ?_⟩
  · have hk : decodeKey "\r" =
        ⟨false, false, false, false, false, true, false, false, none⟩ := by decide
    simp only [onKey, hk, hm]
    simp [onKeyAdd, hf]
  · simp only [onKey]
    split
    · rfl
    · simp only [hm]
      simp only [show (Mode.add = Mode.logs) = False by simp, if_false,
        show (Mode.add = Mode.add) = True by simp, if_true]
      rw [← hm]
      exact onKeyAdd_busy (decodeKey s) st b
  · have hk : decodeKey "s" =
        ⟨false, false, false, false, false, false, false, false, some "s"⟩ := by decide
    simp only [onKey, hk, hm]
    simp [onKeyDashboard, hs, hc, hb]

theorem busy_gates_only_dashboard_witness :
    ({ initState with mode := .add, addForm := ⟨"n", "c", 1⟩, busy := true } :
      AppState).mode = .add ∧
    onKey 24 0 { initState with mode := .add, addForm := ⟨"n", "c", 1⟩, busy := true }
        "\r" =
      ({ initState with mode := .add, addForm := ⟨"n", "c", 1⟩, busy := true },
        [.submitAddE]) :=
  ⟨rfl, (busy_gates_only_dashboard 24 0).1
    { initState with mode := .add, addForm := ⟨"n", "c", 1⟩, busy := true }
    rfl rfl rfl⟩

/-! ### Platform adapter: discovery (src/service.ts)

The discovery functions are embedded as pure functions of the textual
outputs of the external commands they run.  String plumbing is modelled on
character lists so that everything evaluates: `split("\n")` and
`split("\t")` are `splitOnChar`; `trim().split(/\s+/)` is `splitWs` (which
returns `[]` instead of JS's `[""]` on an all-whitespace line — both fail
the minimum-field checks identically); `replace(pat, "")` removes the
first occurrence only; a JS `Map` built by `set` is an association list
with the newest binding in front; `localeCompare` ordering is approximated
by code-point order.  `parseInt` yields `none` for `NaN`. -/

def splitOnChar (sep : Char) : List Char → List (List Char)
  | [] => [[]]
  | c :: cs =>
    let r := splitOnChar sep cs
    if c = sep then [] :: r
    else match r with
      | [] => [[c]]
      | x :: xs => (c :: x) :: xs

def linesOf (s : String) : List String := (splitOnChar '\n' s.data).map String.mk

def trimStr (s : String) : String :=
  String.mk (((s.data.dropWhile Char.isWhitespace).reverse.dropWhile
    Char.isWhitespace).reverse)

def wordsAux : List Char → List Char → List String
  | [], acc => if acc.isEmpty then [] else [String.mk acc.reverse]
  | c :: cs, acc =>
    if c.isWhitespace then
      if acc.isEmpty then wordsAux cs [] else String.mk acc.reverse :: wordsAux cs []
    else wordsAux cs (c :: acc)

def splitWs (s : String) : List String := wordsAux s.data []

def removeFirstAux (pat : List Char) : List Char → List Char
  | [] => []
  | c :: cs =>
    if leadsWith pat (c :: cs) then (c :: cs).drop pat.length
    else c :: removeFirstAux pat cs

def removeFirst (s pat : String) : String := String.mk (removeFirstAux pat.data s.data)

def digitRun (cs : List Char) : Option Nat :=
  let ds := cs.takeWhile Char.isDigit
  if ds.isEmpty then none
  else some (ds.foldl (fun n c => n * 10 + (c.toNat - 48)) 0)

def parseIntJS (s : String) : Option Int :=
  match s.data.dropWhile Char.isWhitespace with
  | '-' :: rest => (digitRun rest).map (fun n => -(n : Int))
  | '+' :: rest => (digitRun rest).map (fun n => (n : Int))
  | cs => (digitRun cs).map (fun n => (n : Int))

/-- JS `Array.prototype.sort` (stable) with a two-way comparator, modelled
as a stable insertion sort; `localeCompare` is approximated by code-point
order. -/
def insertSorted {α : Type} (le : α → α → Bool) (a : α) : List α → List α
  | [] => [a]
  | b :: bs => if le a b then a :: b :: bs else b :: insertSorted le a bs

def insertionSort {α : Type} (le : α → α → Bool) : List α → List α
  | [] => []
  | a :: as => insertSorted le a (insertionSort le as)

theorem mem_insertSorted {α : Type} (le : α → α → Bool) (a x : α) (l : List α) :
    x ∈ insertSorted le a l ↔ x = a ∨ x ∈ l := by
  induction l with
  | nil => simp [insertSorted]
  | cons b bs ih =>
    simp only [insertSorted]
    split
    · simp
    · simp only [List.mem_cons, ih]
      tauto

theorem mem_insertionSort {α : Type} (le : α → α → Bool) (x : α) (l : List α) :
    x ∈ insertionSort le l ↔ x ∈ l := by
  induction l with
  | nil => simp [insertionSort]
  | cons a as ih =>
    simp only [insertionSort, mem_insertSorted, ih, List.mem_cons]

/-- `discoverSystemd` (src/service.ts lines 27-59) as a function of the
trimmed stdout of `systemctl list-units --type=service --all` and of
`systemctl list-unit-files --type=service`. -/
def discoverSystemd (unitsOut unitFilesOut : String) : List ServiceInfo :=
  let enabledMap := ((linesOf unitFilesOut).filter (· ≠ "")).foldl
    (fun m line =>
      let parts := splitWs (trimStr line)
      if 2 ≤ parts.length then
        (removeFirst (parts.getD 0 "") ".service", parts.getD 1 "") :: m
      else m) []
  let services := ((linesOf unitsOut).filter (· ≠ "")).filterMap
    (fun line =>
      let parts := splitWs (trimStr line)
      if parts.length < 4 then none
      else
        let name := removeFirst (parts.getD 0 "") ".service"
        let loadState := parts.getD 1 ""
        if loadState = "not-found" then none
        else
          let activeState := parts.getD 2 ""
          let enableState := (List.lookup name enabledMap).getD "unknown"
          some ⟨name, activeState == "active", activeState,
            some (enableState == "enabled")⟩)
  insertionSort (fun a b => decide (a.name ≤ b.name)) services

structure LaunchInfo where
  pid : Option Int
  status : Option Int
deriving DecidableEq, Repr

/-- `parseLaunchctlList` (src/service.ts lines 81-93): skip the header
line, split each line on tabs, keep lines with at least three fields;
`pid` is 0 for "-", else `parseInt` of the field (`none` = `NaN`). -/
def parseLaunchctlList (output : String) : List (String × LaunchInfo) :=
  ((linesOf output).drop 1).foldl
    (fun m line =>
      let parts := (splitOnChar '\t' line.data).map String.mk
      if 3 ≤ parts.length then
        (parts.getD 2 "",
          (⟨if parts.getD 0 "" = "-" then some 0 else parseIntJS (parts.getD 0 ""),
            parseIntJS (parts.getD 1 "")⟩ : LaunchInfo)) :: m
      else m) []

def pidPos (i : LaunchInfo) : Bool :=
  match i.pid with
  | some p => decide (0 < p)
  | none => false

def optIntStr : Option Int → String
  | some n => toString n
  | none => "NaN"

def lastSlashSeg (file : String) : String :=
  (((splitOnChar '/' file.data).map String.mk).getLast?).getD ""

/-- One discovered launchd record (src/service.ts lines 125-137). -/
def launchdRecord (loaded : List (String × LaunchInfo)) (file : String) :
    ServiceInfo :=
  let label := removeFirst (lastSlashSeg file) ".plist"
  match List.lookup label loaded with
  | some i =>
    ⟨label, pidPos i,
      (if pidPos i then "running (PID " ++ optIntStr i.pid ++ ")"
        else "stopped (" ++ optIntStr i.status ++ ")"),
      some true⟩
  | none => ⟨label, false, "unloaded", some false⟩

/-- `discoverLaunchd` (src/service.ts lines 95-142) as a function of the
stdout of `launchctl list`, the exit code and stdout of
`sudo -n launchctl list`, and the `(code, stdout)` of the `find` scan of
each plist directory.  The system-domain entries override user-domain
ones, as `Map.set` does.  The `plistPaths` bookkeeping feeds only the
control/remove adapter and is not returned. -/
def discoverLaunchd (userOut : String) (sysCode : Int) (sysOut : String)
    (scans : List (Int × String)) : List ServiceInfo :=
  let loaded := if sysCode = 0 then
      parseLaunchctlList sysOut ++ parseLaunchctlList userOut
    else parseLaunchctlList userOut
  let services := scans.flatMap (fun scan =>
    if scan.1 ≠ 0 ∨ scan.2 = "" then []
    else (((linesOf scan.2).filter (· ≠ "")).map (launchdRecord loaded)))
  insertionSort (fun a b => decide (a.name ≤ b.name)) services

/-- C9 counterexample: a systemd unit with no entry in the unit-file
enablement listing is reported with `enabled` present and false
(`"unknown" === "enabled"` evaluates to `false`), not with the field
absent. -/
theorem discovery_enabled_cex :
    (discoverSystemd "foo.service loaded inactive dead x" "").map
      (fun r => (r.name, r.enabled)) = [("foo", some false)] := by decide

/-- C9 amended: `enabled` is never absent in a discovered record.
`discoverSystemd` sets it to whether the unit-file listing maps the unit
to exactly "enabled" (units missing from the listing count as not
enabled); `discoverLaunchd` sets it to whether the service is loaded. -/
theorem discovery_enabled_amended :
    (∀ u f : String, ∀ r ∈ discoverSystemd u f, (r.enabled).isSome) ∧
    (∀ (uo : String) (sc : Int) (so : String) (scans : List (Int × String)),
      ∀ r ∈ discoverLaunchd uo sc so scans, (r.enabled).isSome) := by
  constructor
  · intro u f r hr
    unfold discoverSystemd at hr
    rw [mem_insertionSort] at hr
    rcases List.mem_filterMap.mp hr with ⟨line, _, hparse⟩
    simp only at hparse
    split at hparse
    · exact absurd hparse (by simp)
    split at hparse
    · exact absurd hparse (by simp)
    · rw [Option.some_inj] at hparse
      rw [← hparse]
      rfl
  · intro uo sc so scans r hr
    unfold discoverLaunchd at hr
    rw [mem_insertionSort] at hr
    rcases List.mem_flatMap.mp hr with ⟨scan, _, hmem⟩
    split at hmem
    · exact absurd hmem (List.not_mem_nil r)
    · rcases List.mem_map.mp hmem with ⟨file, _, hrec⟩
      rw [← hrec]
      simp only [launchdRecord]
      split <;> rfl

theorem discovery_enabled_amended_witness :
    (⟨"foo", false, "inactive", some false⟩ : ServiceInfo) ∈
      discoverSystemd "foo.service loaded inactive dead x" "" ∧
    ((⟨"foo", false, "inactive", some false⟩ : ServiceInfo).enabled).isSome :=
  ⟨by decide, discovery_enabled_amended.1 "foo.service loaded inactive dead x" ""
    ⟨"foo", false, "inactive", some false⟩ (by decide)⟩

end ServiceManager
